import Mathlib

/-!
A verification development for the MiniTrackingSystem repository: a shallow
embedding, in Lean, of its list access-control, statistics-aggregation and
list/list-item/metadata CRUD layer (models/List.js, models/ListItem.js,
models/Metadata.js, routes/lists.js, routes/listItems.js, routes/metadata.js,
middleware/auth.js, routes/auth.js), together with theorems about the
embedded definitions.

The SQLite store is modelled as in-memory lists of rows (one Lean structure
per table of database/migrations/001_initial_schema.sql, restricted to the
columns the embedded code reads or writes); `run`/`get`/`all` SQL calls
become explicit state passing.  `datetime('now')` becomes an explicit `now`
parameter.  JavaScript `undefined` is modelled as the outer `none` of an
`Option`; SQL `NULL` as the inner `none` where both can occur.  SQLite's
`lastID` for an `INSERT` is modelled as one more than the largest id in the
table (`nextId`).  Query result order (`ORDER BY` clauses) is not modelled:
no statement below depends on row order beyond first-match lookup of
unique ids.
-/

namespace MiniTrack

/-! ## Table rows (database/migrations/001_initial_schema.sql) -/

/-- A row of the `users` table (columns used by the embedded code). -/
structure UserRow where
  id : Nat
  username : String
  deriving DecidableEq

/-- A row of the `factions` table (columns used by the embedded code). -/
structure FactionRow where
  id : Nat
  name : String
  deriving DecidableEq

/-- A row of the `unit_types` table (columns used by the embedded code). -/
structure UnitTypeRow where
  id : Nat
  name : String
  deriving DecidableEq

/-- A row of the `miniatures` table (columns used by the embedded code). -/
structure MiniatureRow where
  id : Nat
  name : String
  factionId : Option Nat
  unitTypeId : Option Nat
  pointsValue : Option Int
  deriving DecidableEq

/-- A row of the `lists` table.  `createdAt`/`updatedAt` model the DATETIME
columns as abstract clock readings. -/
structure ListRow where
  id : Nat
  userId : Nat
  name : String
  description : Option String
  isPublic : Bool
  createdAt : Nat
  updatedAt : Nat
  deriving DecidableEq

/-- A row of the `list_items` table.  `quantity` is the INTEGER column. -/
structure ListItemRow where
  id : Nat
  listId : Nat
  miniatureId : Nat
  quantity : Int
  assemblyStatus : String
  paintingStatus : String
  notes : Option String
  addedAt : Nat
  deriving DecidableEq

/-- A row of the `metadata` table.  The REAL `cost` column is modelled
by `Rat`. -/
structure MetadataRow where
  id : Nat
  listItemId : Nat
  paintColors : Option String
  techniques : Option String
  purchaseDate : Option String
  cost : Option Rat
  storageLocation : Option String
  customNotes : Option String
  deriving DecidableEq

/-- The whole SQLite database. -/
structure DB where
  users : List UserRow
  factions : List FactionRow
  unitTypes : List UnitTypeRow
  miniatures : List MiniatureRow
  lists : List ListRow
  items : List ListItemRow
  metadata : List MetadataRow
  deriving DecidableEq

/-! ## JavaScript value helpers -/

/-- JS `x || dflt` on a string that may be `undefined`: `undefined` and the
empty string are falsy. -/
def jsStrOrDefault (dflt : String) : Option String → String
  | some s => if s = "" then dflt else s
  | none => dflt

/-- JS `x || null` on a value that may be `undefined`, `null` or a string
(outer `Option` = definedness, inner `Option` = nullability): `undefined`,
`null` and `""` all collapse to SQL NULL. -/
def jsStrOrNull : Option (Option String) → Option String
  | some (some s) => if s = "" then none else some s
  | _ => none

/-- JS `quantity || 1`: `undefined` and `0` are falsy and fall back to 1. -/
def jsIntOr1 : Option Int → Int
  | some n => if n = 0 then 1 else n
  | none => 1

/-- Model of SQLite `lastID` for an INSERT: one more than the largest id
already present. -/
def nextId (ids : List Nat) : Nat := ids.foldl max 0 + 1

/-! ## models/List.js -/

/-- The row shape returned by the items query inside `List.findById`
(`SELECT li.*, m.name AS miniature_name, f.name AS faction_name,
ut.name AS unit_type_name ...`).  Note that the query selects `li.*` and the
three name columns only: `m.points_value` is NOT selected, so the row has no
points column. -/
structure JoinedItemRow where
  id : Nat
  listId : Nat
  miniatureId : Nat
  quantity : Int
  assemblyStatus : String
  paintingStatus : String
  notes : Option String
  addedAt : Nat
  miniatureName : String
  factionName : Option String
  unitTypeName : Option String
  deriving DecidableEq

/-- `LEFT JOIN factions f ON m.faction_id = f.id` projected to `f.name`. -/
def lookupFactionName (db : DB) (fid : Option Nat) : Option String :=
  fid.bind fun f => (db.factions.find? fun fa => fa.id == f).map (·.name)

/-- `LEFT JOIN unit_types ut ON m.unit_type_id = ut.id` projected to
`ut.name`. -/
def lookupUnitTypeName (db : DB) (uid : Option Nat) : Option String :=
  uid.bind fun u => (db.unitTypes.find? fun ut => ut.id == u).map (·.name)

/-- The items query of `List.findById`: list items of the list, INNER JOINed
with their miniature (items whose miniature row is missing are dropped by the
inner join) and LEFT JOINed with faction and unit-type names. -/
def fetchListItems (db : DB) (listId : Nat) : List JoinedItemRow :=
  db.items.filterMap fun li =>
    if li.listId == listId then
      (db.miniatures.find? fun m => m.id == li.miniatureId).map fun m =>
        { id := li.id, listId := li.listId, miniatureId := li.miniatureId,
          quantity := li.quantity, assemblyStatus := li.assemblyStatus,
          paintingStatus := li.paintingStatus, notes := li.notes,
          addedAt := li.addedAt, miniatureName := m.name,
          factionName := lookupFactionName db m.factionId,
          unitTypeName := lookupUnitTypeName db m.unitTypeId }
    else none

/-- The `stats` object built by `List.findById`.  The two progress objects
are fixed-key: the fields spell the literal keys `'Not Started'`,
`'In Progress'`, `Assembled`, `Unpainted`, `Primed`, `'Base Coated'`,
`Detailed`, `Finished` of the JS object literals. -/
structure Statistics where
  totalItems : Nat
  totalPoints : Int
  asmNotStarted : Int
  asmInProgress : Int
  asmAssembled : Int
  pntUnpainted : Int
  pntPrimed : Int
  pntBaseCoated : Int
  pntDetailed : Int
  pntFinished : Int
  deriving DecidableEq

/-- The property read `item.points_value` in the stats reducer of
`List.findById`.  The items query selects `li.*` plus three name columns
only, so the key `points_value` is absent from the row object and the read
yields `undefined`, modelled as `none`. -/
def rowPointsValue (_ : JoinedItemRow) : Option Int := none

/-- One step of the reducer
`(sum, item) => sum + (item.points_value || 0) * item.quantity`. -/
def addPoints (sum : Int) (it : JoinedItemRow) : Int :=
  sum + (rowPointsValue it).getD 0 * it.quantity

/-- `stats.assemblyProgress[item.assembly_status] += item.quantity`
projected onto the three fixed keys: an out-of-enumeration status string
writes a fresh key outside the fixed object, leaving all three fixed
buckets unchanged. -/
def bumpAssembly (s : Statistics) (it : JoinedItemRow) : Statistics :=
  if it.assemblyStatus = "Not Started" then
    { s with asmNotStarted := s.asmNotStarted + it.quantity }
  else if it.assemblyStatus = "In Progress" then
    { s with asmInProgress := s.asmInProgress + it.quantity }
  else if it.assemblyStatus = "Assembled" then
    { s with asmAssembled := s.asmAssembled + it.quantity }
  else s

/-- `stats.paintingProgress[item.painting_status] += item.quantity`
projected onto the five fixed keys. -/
def bumpPainting (s : Statistics) (it : JoinedItemRow) : Statistics :=
  if it.paintingStatus = "Unpainted" then
    { s with pntUnpainted := s.pntUnpainted + it.quantity }
  else if it.paintingStatus = "Primed" then
    { s with pntPrimed := s.pntPrimed + it.quantity }
  else if it.paintingStatus = "Base Coated" then
    { s with pntBaseCoated := s.pntBaseCoated + it.quantity }
  else if it.paintingStatus = "Detailed" then
    { s with pntDetailed := s.pntDetailed + it.quantity }
  else if it.paintingStatus = "Finished" then
    { s with pntFinished := s.pntFinished + it.quantity }
  else s

/-- The statistics block of `List.findById`: the initial `stats` object
(`totalItems` from `items.length`, `totalPoints` from the reduce, all
buckets 0) followed by the `items.forEach` that accumulates quantities into
the status buckets. -/
def computeStats (items : List JoinedItemRow) : Statistics :=
  let base : Statistics :=
    { totalItems := items.length,
      totalPoints := items.foldl addPoints 0,
      asmNotStarted := 0, asmInProgress := 0, asmAssembled := 0,
      pntUnpainted := 0, pntPrimed := 0, pntBaseCoated := 0,
      pntDetailed := 0, pntFinished := 0 }
  items.foldl (fun s it => bumpPainting (bumpAssembly s it) it) base

/-- The `list` object of the `List.findById` result (`SELECT l.*,
u.username FROM lists l INNER JOIN users u ON l.user_id = u.id`). -/
structure ListView where
  id : Nat
  userId : Nat
  username : String
  name : String
  description : Option String
  isPublic : Bool
  createdAt : Nat
  updatedAt : Nat
  deriving DecidableEq

/-- The value returned by `List.findById`: the list header, its joined
items (the JS maps the rows to camelCase keys one-to-one; we reuse the row
shape) and the computed statistics. -/
structure FindByIdResult where
  list : ListView
  items : List JoinedItemRow
  statistics : Statistics
  deriving DecidableEq

/-- `List.findById`: `undefined` when no `lists` row has the id or when the
INNER JOIN to `users` finds no owner row; otherwise the header, the joined
items and their statistics. -/
def listFindById (db : DB) (id : Nat) : Option FindByIdResult :=
  match db.lists.find? fun l => l.id == id with
  | none => none
  | some l =>
    match db.users.find? fun u => u.id == l.userId with
    | none => none
    | some u =>
      let items := fetchListItems db id
      some { list := { id := l.id, userId := l.userId, username := u.username,
                       name := l.name, description := l.description,
                       isPublic := l.isPublic, createdAt := l.createdAt,
                       updatedAt := l.updatedAt },
             items := items,
             statistics := computeStats items }

/-- `List.isOwnedBy`: `SELECT COUNT(*) FROM lists WHERE id = ? AND
user_id = ?` compared against 0. -/
def listIsOwnedBy (db : DB) (listId userId : Nat) : Bool :=
  0 < (db.lists.filter fun l => l.id == listId && l.userId == userId).length

/-- `List.isPublic`: `SELECT is_public FROM lists WHERE id = ?`, `false`
when the row is absent. -/
def listIsPublicCheck (db : DB) (id : Nat) : Bool :=
  match db.lists.find? fun l => l.id == id with
  | some l => l.isPublic
  | none => false

/-- The update payload of `List.update` (`listData`): each field is present
(`some`) or absent (`none` = JS `undefined`); a present `description` may
itself be SQL NULL. -/
structure ListUpdateData where
  name : Option String
  description : Option (Option String)
  isPublic : Option Bool
  deriving DecidableEq

/-- The row rewrite performed by the UPDATE statement `List.update` builds:
each provided field is assigned, and `updated_at = datetime('now')` is
always assigned because `List.update` pushes it unconditionally. -/
def applyListUpdate (p : ListUpdateData) (now : Nat) (l : ListRow) : ListRow :=
  { l with name := p.name.getD l.name,
           description := p.description.getD l.description,
           isPublic := p.isPublic.getD l.isPublic,
           updatedAt := now }

/-- `List.update`: the `updates` array always contains at least
`updated_at = datetime('now')`, so the guarded `run` always executes and
rewrites the row with the given id. -/
def listUpdate (db : DB) (id : Nat) (p : ListUpdateData) (now : Nat) : DB :=
  { db with lists := db.lists.map fun l =>
      if l.id = id then applyListUpdate p now l else l }

/-- `List.delete`: `DELETE FROM lists WHERE id = ?`, with the storage-layer
`ON DELETE CASCADE` removing the list's items and, transitively, their
metadata (`PRAGMA foreign_keys = ON` in config/database.js). -/
def listDelete (db : DB) (id : Nat) : DB :=
  let deadItems := db.items.filter fun it => it.listId == id
  { db with
    lists := db.lists.filter fun l => ¬ l.id = id,
    items := db.items.filter fun it => ¬ it.listId = id,
    metadata := db.metadata.filter fun m =>
      ¬ deadItems.any fun it => it.id == m.listItemId }

/-! ## models/ListItem.js -/

/-- `ListItem.ASSEMBLY_STATUS`. -/
def ASSEMBLY_STATUS : List String := ["Not Started", "In Progress", "Assembled"]

/-- `ListItem.PAINTING_STATUS`. -/
def PAINTING_STATUS : List String :=
  ["Unpainted", "Primed", "Base Coated", "Detailed", "Finished"]

/-- `ListItem.isValidAssemblyStatus`. -/
def isValidAssemblyStatus (s : String) : Bool := ASSEMBLY_STATUS.contains s

/-- `ListItem.isValidPaintingStatus`. -/
def isValidPaintingStatus (s : String) : Bool := PAINTING_STATUS.contains s

/-- `ListItem.findById`: `SELECT * FROM list_items WHERE id = ?`. -/
def listItemFindById (db : DB) (id : Nat) : Option ListItemRow :=
  db.items.find? fun it => it.id == id

/-- `ListItem.getListId`: the item's `list_id`, or `null` when the item is
absent. -/
def listItemGetListId (db : DB) (itemId : Nat) : Option Nat :=
  (db.items.find? fun it => it.id == itemId).map (·.listId)

/-- The `UPDATE lists SET updated_at = datetime('now') WHERE id = ?`
side effect (the ownership-cascade touch). -/
def touchList (lists : List ListRow) (listId now : Nat) : List ListRow :=
  lists.map fun l => if l.id = listId then { l with updatedAt := now } else l

/-- The `itemData` argument of `ListItem.create`. -/
structure ListItemCreateData where
  listId : Nat
  miniatureId : Nat
  quantity : Option Int
  assemblyStatus : Option String
  paintingStatus : Option String
  notes : Option (Option String)
  deriving DecidableEq

/-- `ListItem.create`: INSERT with the JS fallback defaults
(`quantity || 1`, `assemblyStatus || 'Not Started'`,
`paintingStatus || 'Unpainted'`, `notes || null`; `added_at` takes the
DATETIME default, i.e. the current time), followed by the unconditional
touch of the parent list's `updated_at`.  The returned echo object is not
modelled; no claim mentions it. -/
def listItemCreate (db : DB) (d : ListItemCreateData) (now : Nat) : DB :=
  let newId := nextId (db.items.map (·.id))
  let row : ListItemRow :=
    { id := newId, listId := d.listId, miniatureId := d.miniatureId,
      quantity := jsIntOr1 d.quantity,
      assemblyStatus := jsStrOrDefault "Not Started" d.assemblyStatus,
      paintingStatus := jsStrOrDefault "Unpainted" d.paintingStatus,
      notes := jsStrOrNull d.notes, addedAt := now }
  { db with items := db.items ++ [row],
            lists := touchList db.lists d.listId now }

/-- The `itemData` argument of `ListItem.update`: a field is pushed into
the UPDATE only when it is not `undefined`. -/
structure ListItemUpdateData where
  quantity : Option Int
  assemblyStatus : Option String
  paintingStatus : Option String
  notes : Option (Option String)
  deriving DecidableEq

/-- Whether `ListItem.update` pushes at least one assignment
(`updates.length > 0`). -/
def itemProvidedAny (p : ListItemUpdateData) : Bool :=
  p.quantity.isSome || p.assemblyStatus.isSome ||
    p.paintingStatus.isSome || p.notes.isSome

/-- The row rewrite of the UPDATE statement `ListItem.update` builds:
provided fields are assigned, absent fields keep their stored values. -/
def applyListItemUpdate (p : ListItemUpdateData) (it : ListItemRow) :
    ListItemRow :=
  { it with quantity := p.quantity.getD it.quantity,
            assemblyStatus := p.assemblyStatus.getD it.assemblyStatus,
            paintingStatus := p.paintingStatus.getD it.paintingStatus,
            notes := p.notes.getD it.notes }

/-- `ListItem.update`: when at least one field is provided, rewrite the row
with the given id, then re-read the item (`ListItem.findById` on the updated
store) and touch its parent list's `updated_at`; when no field is provided,
do nothing at all (no UPDATE, no touch). -/
def listItemUpdate (db : DB) (id : Nat) (p : ListItemUpdateData) (now : Nat) :
    DB :=
  if itemProvidedAny p then
    let db1 : DB :=
      { db with items := db.items.map fun it =>
          if it.id = id then applyListItemUpdate p it else it }
    match listItemFindById db1 id with
    | some it => { db1 with lists := touchList db1.lists it.listId now }
    | none => db1
  else db

/-- `ListItem.delete`: read the item first (for its `list_id`), run
`DELETE FROM list_items WHERE id = ?` (the storage layer cascades the
delete to the item's metadata), then touch the parent list when the item
existed. -/
def listItemDelete (db : DB) (id : Nat) (now : Nat) : DB :=
  let item := listItemFindById db id
  let db1 : DB :=
    { db with items := db.items.filter fun it => ¬ it.id = id,
              metadata := db.metadata.filter fun m => ¬ m.listItemId = id }
  match item with
  | some it => { db1 with lists := touchList db1.lists it.listId now }
  | none => db1

/-! ## models/Metadata.js -/

/-- `Metadata.findByListItemId`:
`SELECT * FROM metadata WHERE list_item_id = ?`. -/
def metadataFindByListItemId (db : DB) (listItemId : Nat) :
    Option MetadataRow :=
  db.metadata.find? fun m => m.listItemId == listItemId

/-- `Metadata.getListItemId`: the metadata row's `list_item_id`, or `null`
when absent. -/
def metadataGetListItemId (db : DB) (metadataId : Nat) : Option Nat :=
  (db.metadata.find? fun m => m.id == metadataId).map (·.listItemId)

/-- The `metadataData` argument of the Metadata model functions: the outer
`Option` is JS definedness, the inner one SQL nullability.  `cost` reaches
the model as a number or `undefined` (routes/metadata.js passes
`cost !== undefined ? Number(cost) : undefined`). -/
structure MetadataData where
  paintColors : Option (Option String)
  techniques : Option (Option String)
  purchaseDate : Option (Option String)
  cost : Option Rat
  storageLocation : Option (Option String)
  customNotes : Option (Option String)
  deriving DecidableEq

/-- Whether `Metadata.update` pushes at least one assignment. -/
def metaProvidedAny (p : MetadataData) : Bool :=
  p.paintColors.isSome || p.techniques.isSome || p.purchaseDate.isSome ||
    p.cost.isSome || p.storageLocation.isSome || p.customNotes.isSome

/-- The row rewrite of the UPDATE statement `Metadata.update` builds:
provided fields are assigned (the raw provided value, including an explicit
null), absent fields keep their stored values.  `list_item_id` and `id` are
never among the assignments. -/
def applyMetadataUpdate (p : MetadataData) (m : MetadataRow) : MetadataRow :=
  { m with paintColors := p.paintColors.getD m.paintColors,
           techniques := p.techniques.getD m.techniques,
           purchaseDate := p.purchaseDate.getD m.purchaseDate,
           cost := match p.cost with | some c => some c | none => m.cost,
           storageLocation := p.storageLocation.getD m.storageLocation,
           customNotes := p.customNotes.getD m.customNotes }

/-- `Metadata.update`: rewrite the row with the given id when at least one
field is provided; otherwise do nothing. -/
def metadataUpdate (db : DB) (id : Nat) (p : MetadataData) : DB :=
  if metaProvidedAny p then
    { db with metadata := db.metadata.map fun m =>
        if m.id = id then applyMetadataUpdate p m else m }
  else db

/-- The object returned by `Metadata.createOrUpdate`.  In the update branch
the payload is spread raw over `{ id, listItemId }`, so a field can be
`undefined` (outer `none`); in the insert branch every field is present
(string-or-null / number-or-null). -/
structure MetadataReturn where
  id : Nat
  listItemId : Nat
  paintColors : Option (Option String)
  techniques : Option (Option String)
  purchaseDate : Option (Option String)
  cost : Option (Option Rat)
  storageLocation : Option (Option String)
  customNotes : Option (Option String)
  deriving DecidableEq

/-- `Metadata.createOrUpdate`: look the row up by `list_item_id`; when it
exists, run `Metadata.update` on it and return `{ id, listItemId,
...metadataData }` (the raw payload spread); when it does not, INSERT a row
with the JS `|| null` fallbacks (`cost !== undefined ? cost : null` for
cost) and return the inserted values. -/
def metadataCreateOrUpdate (db : DB) (listItemId : Nat) (p : MetadataData) :
    MetadataReturn × DB :=
  match metadataFindByListItemId db listItemId with
  | some existing =>
    ({ id := existing.id, listItemId := listItemId,
       paintColors := p.paintColors, techniques := p.techniques,
       purchaseDate := p.purchaseDate, cost := p.cost.map some,
       storageLocation := p.storageLocation, customNotes := p.customNotes },
     metadataUpdate db existing.id p)
  | none =>
    let newId := nextId (db.metadata.map (·.id))
    let row : MetadataRow :=
      { id := newId, listItemId := listItemId,
        paintColors := jsStrOrNull p.paintColors,
        techniques := jsStrOrNull p.techniques,
        purchaseDate := jsStrOrNull p.purchaseDate,
        cost := p.cost,
        storageLocation := jsStrOrNull p.storageLocation,
        customNotes := jsStrOrNull p.customNotes }
    ({ id := newId, listItemId := listItemId,
       paintColors := some row.paintColors,
       techniques := some row.techniques,
       purchaseDate := some row.purchaseDate,
       cost := some row.cost,
       storageLocation := some row.storageLocation,
       customNotes := some row.customNotes },
     { db with metadata := db.metadata ++ [row] })

/-- `Metadata.delete`: `DELETE FROM metadata WHERE id = ?` (nothing
cascades below metadata, and no list timestamp is touched). -/
def metadataDelete (db : DB) (id : Nat) : DB :=
  { db with metadata := db.metadata.filter fun m => ¬ m.id = id }

/-- The numeric value of a two-digit character pair. -/
def char2 (a b : Char) : Nat := (a.toNat - 48) * 10 + (b.toNat - 48)

/-- Days in a month of a given year (Gregorian), as used by the JS `Date`
parser for ISO date-only strings. -/
def daysInMonth (year month : Nat) : Nat :=
  if month = 2 then
    if year % 4 = 0 && (year % 100 ≠ 0 || year % 400 = 0) then 29 else 28
  else if month = 4 || month = 6 || month = 9 || month = 11 then 30
  else 31

/-- `Metadata.isValidDate`: the `^\d{4}-\d{2}-\d{2}$` regex test followed
by `new Date(date)` validity (an ISO date-only string is a valid JS Date
exactly when the month is 01-12 and the day is within the month). -/
def metadataIsValidDate (s : String) : Bool :=
  match s.toList with
  | [y1, y2, y3, y4, h1, m1, m2, h2, d1, d2] =>
    y1.isDigit && y2.isDigit && y3.isDigit && y4.isDigit &&
    h1 = '-' && h2 = '-' &&
    m1.isDigit && m2.isDigit && d1.isDigit && d2.isDigit &&
    (let year := (char2 y1 y2) * 100 + char2 y3 y4
     let month := char2 m1 m2
     let day := char2 d1 d2
     decide (1 ≤ month) && decide (month ≤ 12) && decide (1 ≤ day) &&
       decide (day ≤ daysInMonth year month))
  | _ => false

/-! ## HTTP route layer -/

/-- The response envelope outcomes the routes produce, by HTTP status:
200 ⇒ `ok`, 201 ⇒ `created`, 404 ⇒ `notFound`, 403 ⇒ `forbidden`,
401 ⇒ `unauthorized`, 400 ⇒ `validationError` with the offending field. -/
inductive Resp where
  | ok
  | created
  | notFound
  | forbidden
  | unauthorized
  | validationError (field : String)
  deriving DecidableEq

/-- The outcome of `GET /api/lists/:id` (routes/lists.js): 404, 403, or the
200 payload. -/
inductive ReadResult where
  | notFound
  | forbidden
  | ok (data : FindByIdResult)
  deriving DecidableEq

/-- `GET /api/lists/:id`: fetch via `List.findById` (404 when absent), then
allow owners and public lists (`req.session.userId === result.list.userId`;
an anonymous requester has no session user id and is never the owner),
rejecting the rest with 403. -/
def getListRoute (db : DB) (requester : Option Nat) (listId : Nat) :
    ReadResult :=
  match listFindById db listId with
  | none => .notFound
  | some result =>
    let isOwner : Bool :=
      match requester with
      | some uid => uid == result.list.userId
      | none => false
    if !result.list.isPublic && !isOwner then .forbidden
    else .ok result

/-- The request body of `PUT /api/lists/:id`.  A JSON `null` description is
not modelled: the route would crash on `null.trim()` and answer 500, which
no claim exercises. -/
structure ListUpdateBody where
  name : Option String
  description : Option String
  isPublic : Option Bool
  deriving DecidableEq

/-- `PUT /api/lists/:id` (the handler behind `isAuthenticated`; `uid` is
`req.session.userId`): 404 when `List.findById` misses, 403 when
`List.isOwnedBy` fails, 400 on an empty or over-100-character provided
name, otherwise `List.update` with trimmed fields and a
`description.trim() || null` fallback. -/
def updateListRoute (db : DB) (uid listId : Nat) (body : ListUpdateBody)
    (now : Nat) : Resp × DB :=
  match listFindById db listId with
  | none => (.notFound, db)
  | some _ =>
    if !listIsOwnedBy db listId uid then (.forbidden, db)
    else if body.name.any fun n => n.trim.length = 0 then
      (.validationError "name", db)
    else if body.name.any fun n => n.trim.length > 100 then
      (.validationError "name", db)
    else
      (.ok, listUpdate db listId
        { name := body.name.map (·.trim),
          description := body.description.map fun d =>
            if d.trim = "" then none else some d.trim,
          isPublic := body.isPublic } now)

/-- `DELETE /api/lists/:id`: 404 when absent, 403 when not the owner,
otherwise `List.delete` (cascading). -/
def deleteListRoute (db : DB) (uid listId : Nat) : Resp × DB :=
  match listFindById db listId with
  | none => (.notFound, db)
  | some _ =>
    if !listIsOwnedBy db listId uid then (.forbidden, db)
    else (.ok, listDelete db listId)

/-- The request body of `PUT /api/list-items/:id`.  `quantity` is modelled
as an integer; the route's `Number.isInteger` test is therefore always
satisfied and only `quantity < 1` can fail. -/
structure ListItemBody where
  quantity : Option Int
  assemblyStatus : Option String
  paintingStatus : Option String
  notes : Option (Option String)
  deriving DecidableEq

/-- `PUT /api/list-items/:id` (routes/listItems.js): resolve the item to
its list id (`if (!listId)` treats both a missing item and a `0` list id as
falsy ⇒ 404), check ownership (403), validate (400; a provided empty-string
status is falsy in JS and skips its validation), then `ListItem.update`. -/
def updateListItemRoute (db : DB) (uid itemId : Nat) (body : ListItemBody)
    (now : Nat) : Resp × DB :=
  match listItemGetListId db itemId with
  | none => (.notFound, db)
  | some listId =>
    if listId = 0 then (.notFound, db)
    else if !listIsOwnedBy db listId uid then (.forbidden, db)
    else if body.quantity.any fun q => q < 1 then
      (.validationError "quantity", db)
    else if body.assemblyStatus.any fun s =>
        s ≠ "" && !isValidAssemblyStatus s then
      (.validationError "assemblyStatus", db)
    else if body.paintingStatus.any fun s =>
        s ≠ "" && !isValidPaintingStatus s then
      (.validationError "paintingStatus", db)
    else
      (.ok, listItemUpdate db itemId
        { quantity := body.quantity, assemblyStatus := body.assemblyStatus,
          paintingStatus := body.paintingStatus, notes := body.notes } now)

/-- `DELETE /api/list-items/:id`: resolve to the list id (404 on the falsy
check), check ownership (403), then `ListItem.delete`. -/
def deleteListItemRoute (db : DB) (uid itemId : Nat) (now : Nat) :
    Resp × DB :=
  match listItemGetListId db itemId with
  | none => (.notFound, db)
  | some listId =>
    if listId = 0 then (.notFound, db)
    else if !listIsOwnedBy db listId uid then (.forbidden, db)
    else (.ok, listItemDelete db itemId now)

/-- `POST /api/list-items/:id/metadata` (routes/metadata.js): resolve the
item to its list id (404 on the falsy check), check ownership (403),
validate the purchase date (only when truthy) and the cost (400), then
`Metadata.createOrUpdate`; the HTTP status is `metadata.id ? 200 : 201`. -/
def saveMetadataRoute (db : DB) (uid listItemId : Nat) (body : MetadataData) :
    Resp × DB :=
  match listItemGetListId db listItemId with
  | none => (.notFound, db)
  | some listId =>
    if listId = 0 then (.notFound, db)
    else if !listIsOwnedBy db listId uid then (.forbidden, db)
    else if (match body.purchaseDate with
             | some (some s) => s ≠ "" && !metadataIsValidDate s
             | _ => false) then
      (.validationError "purchaseDate", db)
    else if body.cost.any fun c => c < 0 then
      (.validationError "cost", db)
    else
      let out := metadataCreateOrUpdate db listItemId body
      ((if out.1.id = 0 then .created else .ok), out.2)

/-- `DELETE /api/metadata/:id`: resolve the metadata row to its list item
(404 on the falsy check), then to its list id — with no null check, so a
dangling item resolves to a `null` list id and `List.isOwnedBy(null, uid)`
counts no row, yielding 403 — then `Metadata.delete`. -/
def deleteMetadataRoute (db : DB) (uid metadataId : Nat) : Resp × DB :=
  match metadataGetListItemId db metadataId with
  | none => (.notFound, db)
  | some listItemId =>
    if listItemId = 0 then (.notFound, db)
    else
      let owned : Bool :=
        match listItemGetListId db listItemId with
        | some listId => listIsOwnedBy db listId uid
        | none => false
      if !owned then (.forbidden, db)
      else (.ok, metadataDelete db metadataId)

/-! ## Sessions and middleware/auth.js -/

/-- The express session record, with the properties the repository reads or
writes.  A fresh session (`saveUninitialized: false` notwithstanding) has
none of them set. -/
structure Session where
  userId : Option Nat
  userID : Option Nat
  username : Option String
  isAdmin : Bool
  deriving DecidableEq

/-- A session with no properties set. -/
def emptySession : Session :=
  { userId := none, userID := none, username := none, isAdmin := false }

/-- The session assignment of a successful `POST /api/auth/login`
(routes/auth.js lines 100-103): it sets `req.session.userId` (lower-case
`d`), `req.session.username` and `req.session.isAdmin` — and nothing
else. -/
def loginSessionAssign (s : Session) (u : UserRow) (adminFlag : Bool) :
    Session :=
  { s with userId := some u.id, username := some u.username,
           isAdmin := adminFlag }

/-- The test of the `isAuthenticated` middleware (middleware/auth.js):
`req.session && req.session.userID` — capital `D`. -/
def isAuthenticatedPasses (s : Session) : Bool := s.userID.isSome

/-- An `isAuthenticated`-guarded endpoint: when the middleware test fails
the request is answered 401 and the handler never runs (the store is
untouched). -/
def isAuthenticatedGuard (s : Session) (db : DB) (handler : Resp × DB) :
    Resp × DB :=
  if isAuthenticatedPasses s then handler else (.unauthorized, db)

/-! ## Derived counting helper and concrete stores -/

/-- The number of metadata rows attached to a given list item. -/
def metadataCountFor (db : DB) (listItemId : Nat) : Nat :=
  (db.metadata.filter fun m => m.listItemId == listItemId).length

/-- A small concrete store: one user, one private list (id 1, owner 1,
`updated_at` 3), one item (id 1) with one metadata row (id 1). -/
def sampleDb : DB :=
  { users := [{ id := 1, username := "alice" }],
    factions := [], unitTypes := [],
    miniatures := [{ id := 1, name := "marine", factionId := none,
                     unitTypeId := none, pointsValue := some 100 }],
    lists := [{ id := 1, userId := 1, name := "Army", description := none,
                isPublic := false, createdAt := 0, updatedAt := 3 }],
    items := [{ id := 1, listId := 1, miniatureId := 1, quantity := 2,
                assemblyStatus := "Not Started",
                paintingStatus := "Unpainted", notes := some "n",
                addedAt := 0 }],
    metadata := [{ id := 1, listItemId := 1, paintColors := some "red",
                   techniques := none, purchaseDate := none, cost := none,
                   storageLocation := none, customNotes := none }] }

/-- A concrete store with one private and one public list owned by user 1,
for exercising the read-visibility contract. -/
def visDb : DB :=
  { users := [{ id := 1, username := "alice" }, { id := 2, username := "bob" }],
    factions := [], unitTypes := [], miniatures := [],
    lists := [{ id := 1, userId := 1, name := "Private", description := none,
                isPublic := false, createdAt := 0, updatedAt := 0 },
              { id := 2, userId := 1, name := "Public", description := none,
                isPublic := true, createdAt := 0, updatedAt := 0 }],
    items := [], metadata := [] }

/-- The two-item scenario of the specification: quantities 10 and 5,
miniature points values 100 and 80, statuses Assembled/Finished and
Not Started/Unpainted, in one public list. -/
def scenarioDb : DB :=
  { users := [{ id := 1, username := "alice" }],
    factions := [], unitTypes := [],
    miniatures := [{ id := 1, name := "hero", factionId := none,
                     unitTypeId := none, pointsValue := some 100 },
                   { id := 2, name := "troop", factionId := none,
                     unitTypeId := none, pointsValue := some 80 }],
    lists := [{ id := 1, userId := 1, name := "Scenario", description := none,
                isPublic := true, createdAt := 0, updatedAt := 0 }],
    items := [{ id := 1, listId := 1, miniatureId := 1, quantity := 10,
                assemblyStatus := "Assembled", paintingStatus := "Finished",
                notes := none, addedAt := 0 },
              { id := 2, listId := 1, miniatureId := 2, quantity := 5,
                assemblyStatus := "Not Started",
                paintingStatus := "Unpainted", notes := none, addedAt := 0 }],
    metadata := [] }

/-! ## General list lemmas -/

theorem le_foldl_max (l : List Nat) (a : Nat) : a ≤ l.foldl max a := by
  induction l generalizing a with
  | nil => exact le_refl a
  | cons b t ih => exact le_trans (le_max_left a b) (ih (max a b))

theorem mem_le_foldl_max {x : Nat} :
    ∀ (l : List Nat) (a : Nat), x ∈ l → x ≤ l.foldl max a := by
  intro l
  induction l with
  | nil => intro a hx; cases hx
  | cons b t ih =>
    intro a hx
    rcases List.mem_cons.mp hx with h | h
    · subst h
      exact le_trans (le_max_right a x) (le_foldl_max t (max a x))
    · exact ih (max a b) h

theorem nextId_not_mem (ids : List Nat) : nextId ids ∉ ids := by
  intro h
  have h2 := mem_le_foldl_max ids 0 h
  unfold nextId at h2
  omega

theorem find?_key_unique {α : Type} (key : α → Nat) :
    ∀ (l : List α), (l.map key).Nodup → ∀ {x : α}, x ∈ l → ∀ {k : Nat},
      key x = k → l.find? (fun a => key a == k) = some x := by
  intro l
  induction l with
  | nil => intro _ x hx; cases hx
  | cons b t ih =>
    intro hnd x hx k hk
    rcases List.nodup_cons.mp hnd with ⟨hb, ht⟩
    rcases List.mem_cons.mp hx with h | h
    · subst h
      exact List.find?_cons_of_pos t (by simp [hk])
    · have hbk : ¬ ((fun a => key a == k) b = true) := by
        simp only [beq_iff_eq]
        intro hbk
        apply hb
        rw [hbk, ← hk]
        exact List.mem_map_of_mem key h
      rw [List.find?_cons_of_neg t hbk]
      exact ih ht h hk

theorem find?_of_filter_eq_singleton {α : Type} {p : α → Bool} (l : List α) :
    ∀ {a : α}, l.filter p = [a] → l.find? p = some a := by
  induction l with
  | nil => intro a h; simp at h
  | cons b t ih =>
    intro a h
    rw [List.filter_cons] at h
    by_cases hb : p b = true
    · rw [if_pos hb] at h
      injection h with h1 h2
      rw [List.find?_cons_of_pos t hb, h1]
    · rw [if_neg hb] at h
      rw [List.find?_cons_of_neg t hb]
      exact ih h

theorem filter_map_comm {α : Type} (l : List α) (f : α → α) (p : α → Bool)
    (hf : ∀ a, p (f a) = p a) : (l.map f).filter p = (l.filter p).map f := by
  induction l with
  | nil => rfl
  | cons a t ih =>
    simp only [List.map_cons, List.filter_cons, hf a]
    by_cases h : p a = true
    · rw [if_pos h, if_pos h, List.map_cons, ih]
    · rw [if_neg h, if_neg h, ih]

theorem map_key_conditional {α : Type} (l : List α) (key : α → Nat) (k : Nat)
    (f : α → α) (hf : ∀ a, key (f a) = key a) :
    (l.map fun a => if key a = k then f a else a).map key = l.map key := by
  rw [List.map_map]
  apply List.map_congr_left
  intro a _
  simp only [Function.comp_apply]
  by_cases h : key a = k
  · rw [if_pos h, hf]
  · rw [if_neg h]

theorem find?_conditional_map {α : Type} (key : α → Nat) (l : List α)
    (hnd : (l.map key).Nodup) {x : α} (hx : x ∈ l) {k : Nat} (hk : key x = k)
    (f : α → α) (hf : ∀ a, key (f a) = key a) :
    (l.map fun a => if key a = k then f a else a).find? (fun a => key a == k)
      = some (f x) := by
  have hids := map_key_conditional l key k f hf
  have hmem : f x ∈ l.map fun a => if key a = k then f a else a := by
    have h := List.mem_map_of_mem (fun a => if key a = k then f a else a) hx
    simpa [hk] using h
  exact find?_key_unique key _ (by rw [hids]; exact hnd) hmem (by rw [hf, hk])

theorem eq_singleton_of_length_le_one_of_mem {α : Type} {l : List α}
    (h1 : l.length ≤ 1) {a : α} (ha : a ∈ l) : l = [a] := by
  cases l with
  | nil => cases ha
  | cons b t =>
    cases t with
    | nil => rw [List.mem_singleton.mp ha]
    | cons c t2 => simp [List.length_cons] at h1

theorem exists_find?_eq_some_of_mem {α : Type} {p : α → Bool} {l : List α}
    {x : α} (hx : x ∈ l) (hp : p x = true) : ∃ a, l.find? p = some a := by
  cases h : l.find? p with
  | some a => exact ⟨a, rfl⟩
  | none => exact absurd hp (List.find?_eq_none.mp h x hx)

theorem opt_eq_none_of_isSome_false {α : Type} {o : Option α}
    (h : o.isSome = false) : o = none := by
  cases o with
  | none => rfl
  | some a => simp at h

/-! ## Lemmas about the embedded operations -/

theorem listIsOwnedBy_false_of_other (db : DB) {l : ListRow}
    (hl : l ∈ db.lists) (hnd : (db.lists.map (·.id)).Nodup)
    {uid : Nat} (hne : uid ≠ l.userId) :
    listIsOwnedBy db l.id uid = false := by
  unfold listIsOwnedBy
  have hfil : db.lists.filter (fun x => x.id == l.id && x.userId == uid)
      = [] := by
    rw [List.filter_eq_nil_iff]
    intro a ha hpa
    simp only [Bool.and_eq_true, beq_iff_eq] at hpa
    obtain ⟨h1, h2⟩ := hpa
    have haeq : a = l := List.inj_on_of_nodup_map hnd ha hl h1
    apply hne
    rw [← h2, haeq]
  rw [hfil]
  simp

theorem touchList_find (lists : List ListRow)
    (hnd : (lists.map (·.id)).Nodup) (l : ListRow) (hl : l ∈ lists)
    (now : Nat) :
    (touchList lists l.id now).find? (fun x => x.id == l.id)
      = some { l with updatedAt := now } := by
  unfold touchList
  exact find?_conditional_map ListRow.id lists hnd hl rfl
    (fun x => { x with updatedAt := now }) (fun a => rfl)

theorem itemProvidedAny_false_fields {p : ListItemUpdateData}
    (h : itemProvidedAny p = false) :
    p.quantity = none ∧ p.assemblyStatus = none ∧
      p.paintingStatus = none ∧ p.notes = none := by
  unfold itemProvidedAny at h
  simp only [Bool.or_eq_false_iff] at h
  obtain ⟨⟨⟨h1, h2⟩, h3⟩, h4⟩ := h
  exact ⟨opt_eq_none_of_isSome_false h1, opt_eq_none_of_isSome_false h2,
    opt_eq_none_of_isSome_false h3, opt_eq_none_of_isSome_false h4⟩

theorem metaProvidedAny_false_fields {p : MetadataData}
    (h : metaProvidedAny p = false) :
    p.paintColors = none ∧ p.techniques = none ∧ p.purchaseDate = none ∧
      p.cost = none ∧ p.storageLocation = none ∧ p.customNotes = none := by
  unfold metaProvidedAny at h
  simp only [Bool.or_eq_false_iff] at h
  obtain ⟨⟨⟨⟨⟨h1, h2⟩, h3⟩, h4⟩, h5⟩, h6⟩ := h
  exact ⟨opt_eq_none_of_isSome_false h1, opt_eq_none_of_isSome_false h2,
    opt_eq_none_of_isSome_false h3, opt_eq_none_of_isSome_false h4,
    opt_eq_none_of_isSome_false h5, opt_eq_none_of_isSome_false h6⟩

theorem applyListItemUpdate_of_none {p : ListItemUpdateData}
    (h : itemProvidedAny p = false) (it : ListItemRow) :
    applyListItemUpdate p it = it := by
  obtain ⟨h1, h2, h3, h4⟩ := itemProvidedAny_false_fields h
  unfold applyListItemUpdate
  rw [h1, h2, h3, h4]
  rfl

theorem applyMetadataUpdate_of_none {p : MetadataData}
    (h : metaProvidedAny p = false) (m : MetadataRow) :
    applyMetadataUpdate p m = m := by
  obtain ⟨h1, h2, h3, h4, h5, h6⟩ := metaProvidedAny_false_fields h
  unfold applyMetadataUpdate
  rw [h1, h2, h3, h4, h5, h6]
  rfl

theorem metadataUpdate_metadata_eq (db : DB) (tid : Nat) (p : MetadataData) :
    (metadataUpdate db tid p).metadata
      = db.metadata.map fun m =>
          if m.id = tid then applyMetadataUpdate p m else m := by
  unfold metadataUpdate
  by_cases h : metaProvidedAny p = true
  · rw [if_pos h]
  · rw [if_neg h]
    have hfalse : metaProvidedAny p = false := by
      cases hc : metaProvidedAny p
      · rfl
      · exact absurd hc h
    symm
    calc db.metadata.map (fun m =>
            if m.id = tid then applyMetadataUpdate p m else m)
        = db.metadata.map id := by
          apply List.map_congr_left
          intro a _
          by_cases ha : a.id = tid
          · rw [if_pos ha, applyMetadataUpdate_of_none hfalse]; rfl
          · rw [if_neg ha]; rfl
      _ = db.metadata := List.map_id db.metadata

theorem listItemUpdate_items_eq (db : DB) (id : Nat) (p : ListItemUpdateData)
    (now : Nat) :
    (listItemUpdate db id p now).items
      = if itemProvidedAny p then
          db.items.map fun it =>
            if it.id = id then applyListItemUpdate p it else it
        else db.items := by
  unfold listItemUpdate
  by_cases h : itemProvidedAny p = true
  · rw [if_pos h, if_pos h]
    dsimp only
    cases hf : listItemFindById
        { db with items := db.items.map fun it =>
            if it.id = id then applyListItemUpdate p it else it } id <;> rfl
  · rw [if_neg h, if_neg h]

theorem listItemUpdate_of_none (db : DB) (id : Nat) (p : ListItemUpdateData)
    (h : itemProvidedAny p = false) (now : Nat) :
    listItemUpdate db id p now = db := by
  unfold listItemUpdate
  rw [if_neg (by rw [h]; exact Bool.false_ne_true)]

theorem addPoints_eq (a : Int) (it : JoinedItemRow) : addPoints a it = a := by
  unfold addPoints rowPointsValue
  simp

theorem foldl_addPoints_const :
    ∀ (items : List JoinedItemRow) (a : Int), items.foldl addPoints a = a := by
  intro items
  induction items with
  | nil => intro a; rfl
  | cons b t ih => intro a; rw [List.foldl_cons, addPoints_eq]; exact ih a

theorem bump_totalPoints (s : Statistics) (it : JoinedItemRow) :
    (bumpPainting (bumpAssembly s it) it).totalPoints = s.totalPoints := by
  unfold bumpPainting bumpAssembly
  split_ifs <;> rfl

theorem foldl_bump_totalPoints :
    ∀ (items : List JoinedItemRow) (s : Statistics),
      (items.foldl (fun s it => bumpPainting (bumpAssembly s it) it)
        s).totalPoints = s.totalPoints := by
  intro items
  induction items with
  | nil => intro s; rfl
  | cons b t ih => intro s; rw [List.foldl_cons, ih, bump_totalPoints]

/-! ## Claim theorems -/

/-- Claim C4: the login route stores the authenticated user id in
`req.session.userId` (lower-case d) while the `isAuthenticated` middleware
tests `req.session.userID` (capital D), which login never sets; so on any
session whose `userID` property is unset a successful login produces a
session that still fails the middleware test, and every
`isAuthenticated`-guarded endpoint — all list, list-item and metadata
write endpoints — answers 401 UNAUTHORIZED with the store untouched,
whoever the caller is. -/
theorem login_never_satisfies_isAuthenticated
    (s : Session) (h : s.userID = none) (u : UserRow) (adminFlag : Bool) :
    isAuthenticatedPasses (loginSessionAssign s u adminFlag) = false
    ∧ ∀ (db : DB) (handler : Resp × DB),
        isAuthenticatedGuard (loginSessionAssign s u adminFlag) db handler
          = (.unauthorized, db) := by
  have hp : isAuthenticatedPasses (loginSessionAssign s u adminFlag)
      = false := by
    unfold isAuthenticatedPasses loginSessionAssign
    simp [h]
  refine ⟨hp, fun db handler => ?_⟩
  simp [isAuthenticatedGuard, hp]

/-- Witness for C4: a fresh session, logged in as a concrete user, still
fails the middleware test. -/
theorem login_never_satisfies_isAuthenticated_witness :
    isAuthenticatedPasses
        (loginSessionAssign emptySession { id := 1, username := "alice" }
          false) = false :=
  (login_never_satisfies_isAuthenticated emptySession rfl
    { id := 1, username := "alice" } false).1

/-- Claim C10: every call to `List.update` sets the list's `updated_at` to
the current time, even when the payload provides none of name, description
or isPublic — the `updated_at` assignment is appended unconditionally, so
the updates array is never empty and an empty-payload update still touches
the timestamp; by contrast `ListItem.update` does nothing at all on an
empty payload. -/
theorem list_update_always_touches
    (db : DB) (p : ListUpdateData) (now : Nat) (l : ListRow)
    (hl : l ∈ db.lists) (hnd : (db.lists.map (·.id)).Nodup) :
    (listUpdate db l.id p now).lists.find? (fun x => x.id == l.id)
      = some { l with name := p.name.getD l.name,
                      description := p.description.getD l.description,
                      isPublic := p.isPublic.getD l.isPublic,
                      updatedAt := now }
    ∧ (listUpdate db l.id ⟨none, none, none⟩ now).lists.find?
        (fun x => x.id == l.id) = some { l with updatedAt := now }
    ∧ ∀ (db0 : DB) (itemId : Nat),
        listItemUpdate db0 itemId ⟨none, none, none, none⟩ now = db0 := by
  have h1 : ∀ q : ListUpdateData,
      (listUpdate db l.id q now).lists.find? (fun x => x.id == l.id)
        = some (applyListUpdate q now l) := by
    intro q
    unfold listUpdate
    exact find?_conditional_map ListRow.id db.lists hnd hl rfl
      (applyListUpdate q now) (fun a => rfl)
  refine ⟨h1 p, ?_, ?_⟩
  · rw [h1]
    rfl
  · intro db0 itemId
    exact listItemUpdate_of_none db0 itemId ⟨none, none, none, none⟩ rfl now

/-- Witness for C10: an all-absent payload still rewrites `updated_at`. -/
theorem list_update_always_touches_witness :
    (listUpdate sampleDb 1 ⟨none, none, none⟩ 10).lists.find?
        (fun x => x.id == 1)
      = some { id := 1, userId := 1, name := "Army", description := none,
               isPublic := false, createdAt := 0, updatedAt := 10 } :=
  (list_update_always_touches sampleDb ⟨none, none, none⟩ 10
    { id := 1, userId := 1, name := "Army", description := none,
      isPublic := false, createdAt := 0, updatedAt := 3 }
    (by decide) (by decide)).2.1

/-- Claim C8: `ListItem.update` is a partial update — exactly the fields
explicitly provided (quantity, assemblyStatus, paintingStatus, notes, when
not undefined) are changed to the supplied values, every field not
provided (including id, list id, miniature id and added timestamp) keeps
its previous stored value, and all other rows are untouched. -/
theorem listItem_update_only_provided_fields
    (db : DB) (p : ListItemUpdateData) (now : Nat) (it : ListItemRow)
    (hit : it ∈ db.items) (hnd : (db.items.map (·.id)).Nodup) :
    (listItemUpdate db it.id p now).items.find? (fun x => x.id == it.id)
      = some { it with
          quantity := p.quantity.getD it.quantity,
          assemblyStatus := p.assemblyStatus.getD it.assemblyStatus,
          paintingStatus := p.paintingStatus.getD it.paintingStatus,
          notes := p.notes.getD it.notes }
    ∧ (∀ x ∈ db.items, x.id ≠ it.id →
        x ∈ (listItemUpdate db it.id p now).items)
    ∧ (listItemUpdate db it.id p now).items.length = db.items.length := by
  by_cases h : itemProvidedAny p = true
  · have hitems := listItemUpdate_items_eq db it.id p now
    rw [if_pos h] at hitems
    refine ⟨?_, ?_, ?_⟩
    · rw [hitems]
      exact find?_conditional_map ListItemRow.id db.items hnd hit rfl
        (applyListItemUpdate p) (fun a => rfl)
    · intro x hx hne
      rw [hitems]
      have hmem := List.mem_map_of_mem
        (fun a => if a.id = it.id then applyListItemUpdate p a else a) hx
      simpa [hne] using hmem
    · rw [hitems, List.length_map]
  · have hfalse : itemProvidedAny p = false := by
      cases hc : itemProvidedAny p
      · rfl
      · exact absurd hc h
    obtain ⟨h1, h2, h3, h4⟩ := itemProvidedAny_false_fields hfalse
    rw [listItemUpdate_of_none db it.id p hfalse now]
    refine ⟨?_, fun x hx _ => hx, rfl⟩
    rw [h1, h2, h3, h4]
    exact find?_key_unique ListItemRow.id db.items hnd hit rfl

/-- Witness for C8: providing only a quantity changes only the quantity. -/
theorem listItem_update_only_provided_fields_witness :
    (listItemUpdate sampleDb 1 ⟨some 5, none, none, none⟩ 10).items.find?
      (fun x => x.id == 1)
      = some { id := 1, listId := 1, miniatureId := 1, quantity := 5,
               assemblyStatus := "Not Started", paintingStatus := "Unpainted",
               notes := some "n", addedAt := 0 } :=
  (listItem_update_only_provided_fields sampleDb ⟨some 5, none, none, none⟩ 10
    { id := 1, listId := 1, miniatureId := 1, quantity := 2,
      assemblyStatus := "Not Started", paintingStatus := "Unpainted",
      notes := some "n", addedAt := 0 }
    (by decide) (by decide)).1

/-- Claim C2 (behaviour at the code's divergence): the items query of
`List.findById` does not select `m.points_value`, so the reducer's
`item.points_value` read is always `undefined` and `totalPoints` is 0 for
every list — in particular the specification's two-item scenario
(quantities 10 and 5, points 100 and 80) yields `totalPoints` 0, not 1400,
while `totalItems` and both fixed-key histograms match the specified
values. -/
theorem findById_statistics_behaviour :
    (∀ items : List JoinedItemRow, (computeStats items).totalPoints = 0)
    ∧ (listFindById scenarioDb 1).map (·.statistics)
        = some { totalItems := 2, totalPoints := 0, asmNotStarted := 5,
                 asmInProgress := 0, asmAssembled := 10, pntUnpainted := 5,
                 pntPrimed := 0, pntBaseCoated := 0, pntDetailed := 0,
                 pntFinished := 10 } := by
  constructor
  · intro items
    unfold computeStats
    dsimp only
    rw [foldl_bump_totalPoints]
    exact foldl_addPoints_const items 0
  · decide

theorem metadataUpdate_lists (db : DB) (tid : Nat) (p : MetadataData) :
    (metadataUpdate db tid p).lists = db.lists := by
  unfold metadataUpdate
  split <;> rfl

theorem metadataCreateOrUpdate_lists (db : DB) (liId : Nat)
    (p : MetadataData) :
    ((metadataCreateOrUpdate db liId p).2).lists = db.lists := by
  unfold metadataCreateOrUpdate
  cases hf : metadataFindByListItemId db liId with
  | none => rfl
  | some a => exact metadataUpdate_lists db a.id p

/-- Claim C6 (counterexample): a successful metadata mutation leaves the
parent list's `updated_at` untouched: deleting metadata row 1 of the item
in list 1 answers 200 while the list's `updated_at` stays at its old value
3, and saving metadata likewise changes no list row. -/
theorem metadata_touch_counterexample :
    (deleteMetadataRoute sampleDb 1 1).1 = Resp.ok
    ∧ ((deleteMetadataRoute sampleDb 1 1).2).lists = sampleDb.lists
    ∧ (saveMetadataRoute sampleDb 1 1
        ⟨some (some "blue"), none, none, none, none, none⟩).1 = Resp.ok
    ∧ ((saveMetadataRoute sampleDb 1 1
        ⟨some (some "blue"), none, none, none, none, none⟩).2).lists
        = sampleDb.lists
    ∧ sampleDb.lists.map (·.updatedAt) = [3] := by
  decide

/-- Claim C6 (amended): metadata create, update and delete — both at the
model layer and through their routes — leave every `lists` row, including
its `updated_at`, exactly unchanged; no ownership-cascade touch is
performed for Metadata mutations (only ListItem mutations touch the
parent list). -/
theorem metadata_ops_never_touch_lists
    (db : DB) (liId mId uid : Nat) (p : MetadataData) :
    ((metadataCreateOrUpdate db liId p).2).lists = db.lists
    ∧ (metadataDelete db mId).lists = db.lists
    ∧ ((saveMetadataRoute db uid liId p).2).lists = db.lists
    ∧ ((deleteMetadataRoute db uid mId).2).lists = db.lists := by
  refine ⟨metadataCreateOrUpdate_lists db liId p, rfl, ?_, ?_⟩
  · unfold saveMetadataRoute
    cases hg : listItemGetListId db liId with
    | none => rfl
    | some lid =>
      dsimp only
      split_ifs <;>
        first
        | rfl
        | exact metadataCreateOrUpdate_lists db liId p
  · unfold deleteMetadataRoute
    cases hg : metadataGetListItemId db mId with
    | none => rfl
    | some liId2 =>
      dsimp only
      split_ifs <;> rfl

/-- Claim C5 (counterexample): a list-item update that provides no fields
is a successful request (`200`, ownership checked) yet performs no touch:
with the parent list's `updated_at` at 3 and the current time 10, the
store — including the timestamp — is returned byte-identical, so the
timestamp is not changed to the current time. -/
theorem listItem_touch_counterexample :
    updateListItemRoute sampleDb 1 1 ⟨none, none, none, none⟩ 10
      = (Resp.ok, sampleDb)
    ∧ sampleDb.lists.map (·.updatedAt) = [3]
    ∧ (3 : Nat) ≠ 10 := by
  decide

/-- Claim C5 (amended): a successful `ListItem.create` or
`ListItem.delete`, and a successful `ListItem.update` that provides at
least one field, set the parent list's `updated_at` to the current time
(hence to a value ≥ its previous one whenever the clock has not gone
backwards); an update providing no fields leaves the store — timestamp
included — unchanged. -/
theorem listItem_mutations_touch_parent
    (db : DB) (now : Nat) (l : ListRow) (hl : l ∈ db.lists)
    (hndL : (db.lists.map (·.id)).Nodup) :
    (∀ d : ListItemCreateData, d.listId = l.id →
      (listItemCreate db d now).lists.find? (fun x => x.id == l.id)
        = some { l with updatedAt := now })
    ∧ (∀ p : ListItemUpdateData, itemProvidedAny p = true →
        (db.items.map (·.id)).Nodup →
        ∀ it ∈ db.items, it.listId = l.id →
        (listItemUpdate db it.id p now).lists.find? (fun x => x.id == l.id)
          = some { l with updatedAt := now })
    ∧ ((db.items.map (·.id)).Nodup →
        ∀ it ∈ db.items, it.listId = l.id →
        (listItemDelete db it.id now).lists.find? (fun x => x.id == l.id)
          = some { l with updatedAt := now })
    ∧ (l.updatedAt ≤ now →
        l.updatedAt ≤ ({ l with updatedAt := now } : ListRow).updatedAt)
    ∧ (∀ (itemId : Nat) (p : ListItemUpdateData), itemProvidedAny p = false →
        listItemUpdate db itemId p now = db) := by
  refine ⟨?_, ?_, ?_, fun h => h, fun itemId p hp =>
    listItemUpdate_of_none db itemId p hp now⟩
  · intro d hd
    unfold listItemCreate
    dsimp only
    rw [hd]
    exact touchList_find db.lists hndL l hl now
  · intro p hprov hndI it hit hlid
    have hfind : listItemFindById
        { db with items := db.items.map fun a =>
            if a.id = it.id then applyListItemUpdate p a else a } it.id
        = some (applyListItemUpdate p it) := by
      unfold listItemFindById
      exact find?_conditional_map ListItemRow.id db.items hndI hit rfl
        (applyListItemUpdate p) (fun a => rfl)
    unfold listItemUpdate
    rw [if_pos hprov]
    dsimp only
    rw [hfind]
    dsimp only
    have hsame : (applyListItemUpdate p it).listId = l.id := by
      rw [← hlid]
      exact rfl
    rw [hsame]
    exact touchList_find db.lists hndL l hl now
  · intro hndI it hit hlid
    have hfind : listItemFindById db it.id = some it := by
      unfold listItemFindById
      exact find?_key_unique ListItemRow.id db.items hndI hit rfl
    unfold listItemDelete
    rw [hfind]
    dsimp only
    rw [hlid]
    exact touchList_find db.lists hndL l hl now

/-- Witness for the amended C5: deleting item 1 at time 9 rewrites the
parent list's `updated_at` from 3 to 9. -/
theorem listItem_mutations_touch_parent_witness :
    (listItemDelete sampleDb 1 9).lists.find? (fun x => x.id == 1)
      = some { id := 1, userId := 1, name := "Army", description := none,
               isPublic := false, createdAt := 0, updatedAt := 9 } :=
  ((listItem_mutations_touch_parent sampleDb 9
    { id := 1, userId := 1, name := "Army", description := none,
      isPublic := false, createdAt := 0, updatedAt := 3 }
    (by decide) (by decide)).2.2.1 (by decide)
    { id := 1, listId := 1, miniatureId := 1, quantity := 2,
      assemblyStatus := "Not Started", paintingStatus := "Unpainted",
      notes := some "n", addedAt := 0 }
    (by decide) rfl)

/-- Claim C1: the single-list read satisfies the visibility contract — an
id matching no list yields NotFound (404) for every requester; an existing
private list yields Forbidden (403), not NotFound, for every requester
other than the owner, the anonymous requester included; and the owner, or
any requester at all when the list is public, receives the list data with
success true.  (The existing-list cases assume the primary-key uniqueness
of ids and the presence of the owner's user row, both guaranteed by the
schema's PRIMARY KEY and FOREIGN KEY constraints.) -/
theorem get_list_read_contract (db : DB) (listId : Nat) :
    ((∀ l ∈ db.lists, l.id ≠ listId) →
      ∀ requester : Option Nat, getListRoute db requester listId = .notFound)
    ∧ (∀ l ∈ db.lists, l.id = listId →
        (db.lists.map (·.id)).Nodup →
        ∀ u ∈ db.users, u.id = l.userId →
        (db.users.map (·.id)).Nodup →
          ((l.isPublic = false →
            ∀ requester : Option Nat, requester ≠ some l.userId →
              getListRoute db requester listId = .forbidden)
          ∧ (∀ requester : Option Nat,
              requester = some l.userId ∨ l.isPublic = true →
              ∃ res, getListRoute db requester listId = .ok res
                ∧ res.list.id = l.id ∧ res.list.userId = l.userId
                ∧ res.list.isPublic = l.isPublic
                ∧ res.statistics
                    = computeStats (fetchListItems db listId)))) := by
  constructor
  · intro hnone requester
    have hfind : db.lists.find? (fun x => x.id == listId) = none := by
      rw [List.find?_eq_none]
      intro x hx
      simpa using hnone x hx
    unfold getListRoute listFindById
    rw [hfind]
  · intro l hl hid hndL u hu huid hndU
    have hfl : db.lists.find? (fun x => x.id == listId) = some l :=
      find?_key_unique ListRow.id db.lists hndL hl hid
    have hfu : db.users.find? (fun x => x.id == l.userId) = some u :=
      find?_key_unique UserRow.id db.users hndU hu huid
    have hres : listFindById db listId = some
        { list := { id := l.id, userId := l.userId, username := u.username,
                    name := l.name, description := l.description,
                    isPublic := l.isPublic, createdAt := l.createdAt,
                    updatedAt := l.updatedAt },
          items := fetchListItems db listId,
          statistics := computeStats (fetchListItems db listId) } := by
      unfold listFindById
      rw [hfl]
      dsimp only
      rw [hfu]
    constructor
    · intro hpriv requester hne
      unfold getListRoute
      rw [hres]
      cases requester with
      | none => simp [hpriv]
      | some uid =>
        have huna : uid ≠ l.userId := fun hq => hne (by rw [hq])
        simp [hpriv, huna]
    · intro requester hor
      have hroute : getListRoute db requester listId = .ok
          { list := { id := l.id, userId := l.userId, username := u.username,
                      name := l.name, description := l.description,
                      isPublic := l.isPublic, createdAt := l.createdAt,
                      updatedAt := l.updatedAt },
            items := fetchListItems db listId,
            statistics := computeStats (fetchListItems db listId) } := by
        unfold getListRoute
        rw [hres]
        rcases hor with hq | hpub
        · rw [hq]
          simp
        · simp [hpub]
      exact ⟨_, hroute, rfl, rfl, rfl, rfl⟩

/-- Witness for C1 on a concrete store: an anonymous or wrong-user read of
the private list 1 is Forbidden (not NotFound), the owner reads it, anyone
reads the public list 2, and a missing id is NotFound. -/
theorem get_list_read_contract_witness :
    getListRoute visDb none 1 = ReadResult.forbidden
    ∧ getListRoute visDb (some 2) 1 = ReadResult.forbidden
    ∧ getListRoute visDb none 99 = ReadResult.notFound := by
  have h := (get_list_read_contract visDb 1).2
    { id := 1, userId := 1, name := "Private", description := none,
      isPublic := false, createdAt := 0, updatedAt := 0 }
    (by decide) rfl (by decide)
    { id := 1, username := "alice" } (by decide) rfl (by decide)
  exact ⟨h.1 rfl none (by decide), h.1 rfl (some 2) (by decide),
    (get_list_read_contract visDb 99).1 (by decide) none⟩

/-- Claim C3: write operations on a list and its children — edit/delete
list, edit/delete list item, create/delete metadata — require ownership:
for every existing list and every authenticated requester whose user id
differs from the list's owner id, each handler answers Forbidden, and the
ownership failure short-circuits before any mutation: the store (lists,
items and metadata alike) is returned unchanged.  (The child cases assume
unique ids and nonzero ids, which the schema's PRIMARY KEY AUTOINCREMENT
columns guarantee, and the list cases assume the owner's user row exists,
as the FOREIGN KEY guarantees.) -/
theorem write_ops_require_owner
    (db : DB) (uid : Nat) (l : ListRow) (hl : l ∈ db.lists)
    (hndL : (db.lists.map (·.id)).Nodup)
    (hu : ∃ u ∈ db.users, u.id = l.userId)
    (hne : uid ≠ l.userId) (now : Nat) (body : ListUpdateBody)
    (ibody : ListItemBody) (mbody : MetadataData) :
    updateListRoute db uid l.id body now = (.forbidden, db)
    ∧ deleteListRoute db uid l.id = (.forbidden, db)
    ∧ ((db.items.map (·.id)).Nodup → l.id ≠ 0 →
        ∀ it ∈ db.items, it.listId = l.id →
          updateListItemRoute db uid it.id ibody now = (.forbidden, db)
          ∧ deleteListItemRoute db uid it.id now = (.forbidden, db)
          ∧ saveMetadataRoute db uid it.id mbody = (.forbidden, db)
          ∧ ((db.metadata.map (·.id)).Nodup → it.id ≠ 0 →
              ∀ m ∈ db.metadata, m.listItemId = it.id →
                deleteMetadataRoute db uid m.id = (.forbidden, db))) := by
  have hown : listIsOwnedBy db l.id uid = false :=
    listIsOwnedBy_false_of_other db hl hndL hne
  have hfl : db.lists.find? (fun x => x.id == l.id) = some l :=
    find?_key_unique ListRow.id db.lists hndL hl rfl
  obtain ⟨u0, hu0, huid0⟩ := hu
  obtain ⟨u1, hfu1⟩ := exists_find?_eq_some_of_mem (p := fun x => x.id == l.userId)
    hu0 (by simp [huid0])
  have hres : ∃ res, listFindById db l.id = some res := by
    unfold listFindById
    rw [hfl]
    dsimp only
    rw [hfu1]
    exact ⟨_, rfl⟩
  obtain ⟨res, hres⟩ := hres
  refine ⟨?_, ?_, ?_⟩
  · unfold updateListRoute
    rw [hres]
    dsimp only
    simp [hown]
  · unfold deleteListRoute
    rw [hres]
    dsimp only
    simp [hown]
  · intro hndI hid0 it hit hlid
    have hfit : db.items.find? (fun x => x.id == it.id) = some it :=
      find?_key_unique ListItemRow.id db.items hndI hit rfl
    have hgl : listItemGetListId db it.id = some it.listId := by
      unfold listItemGetListId
      rw [hfit]
      rfl
    refine ⟨?_, ?_, ?_, ?_⟩
    · unfold updateListItemRoute
      rw [hgl]
      dsimp only
      rw [hlid]
      rw [if_neg hid0]
      simp [hown]
    · unfold deleteListItemRoute
      rw [hgl]
      dsimp only
      rw [hlid]
      rw [if_neg hid0]
      simp [hown]
    · unfold saveMetadataRoute
      rw [hgl]
      dsimp only
      rw [hlid]
      rw [if_neg hid0]
      simp [hown]
    · intro hndM hit0 m hm hmid
      have hfm : db.metadata.find? (fun x => x.id == m.id) = some m :=
        find?_key_unique MetadataRow.id db.metadata hndM hm rfl
      have hgm : metadataGetListItemId db m.id = some m.listItemId := by
        unfold metadataGetListItemId
        rw [hfm]
        rfl
      unfold deleteMetadataRoute
      rw [hgm]
      dsimp only
      rw [hmid]
      rw [if_neg hit0]
      rw [hgl]
      dsimp only
      rw [hlid]
      simp [hown]

/-- Witness for C3 on a concrete store: user 2 (not the owner, user 1) is
rejected with Forbidden by the list edit, item delete and metadata delete
handlers, and the store comes back unchanged. -/
theorem write_ops_require_owner_witness :
    updateListRoute sampleDb 2 1 ⟨none, none, none⟩ 10
      = (Resp.forbidden, sampleDb)
    ∧ deleteListItemRoute sampleDb 2 1 10 = (Resp.forbidden, sampleDb)
    ∧ deleteMetadataRoute sampleDb 2 1 = (Resp.forbidden, sampleDb) := by
  have h := write_ops_require_owner sampleDb 2
    { id := 1, userId := 1, name := "Army", description := none,
      isPublic := false, createdAt := 0, updatedAt := 3 }
    (by decide) (by decide)
    ⟨{ id := 1, username := "alice" }, by decide, rfl⟩
    (by decide) 10 ⟨none, none, none⟩ ⟨none, none, none, none⟩
    ⟨none, none, none, none, none, none⟩
  have h3 := h.2.2 (by decide) (by decide)
    { id := 1, listId := 1, miniatureId := 1, quantity := 2,
      assemblyStatus := "Not Started", paintingStatus := "Unpainted",
      notes := some "n", addedAt := 0 }
    (by decide) rfl
  exact ⟨h.1, h3.2.1,
    h3.2.2.2 (by decide) (by decide)
      { id := 1, listItemId := 1, paintColors := some "red",
        techniques := none, purchaseDate := none, cost := none,
        storageLocation := none, customNotes := none }
      (by decide) rfl⟩

theorem filter_metadataUpdate (db : DB) (tid : Nat) (p : MetadataData)
    (j : Nat) :
    (metadataUpdate db tid p).metadata.filter (fun m => m.listItemId == j)
      = (db.metadata.filter fun m => m.listItemId == j).map
          (fun m => if m.id = tid then applyMetadataUpdate p m else m) := by
  rw [metadataUpdate_metadata_eq]
  exact filter_map_comm db.metadata _ _ (fun m => by
    by_cases h : m.id = tid
    · rw [if_pos h]
      rfl
    · rw [if_neg h])

theorem metadataUpdate_ids (db : DB) (tid : Nat) (p : MetadataData) :
    (metadataUpdate db tid p).metadata.map (·.id)
      = db.metadata.map (·.id) := by
  rw [metadataUpdate_metadata_eq]
  exact map_key_conditional db.metadata MetadataRow.id tid
    (applyMetadataUpdate p) (fun a => rfl)

theorem metadataCreateOrUpdate_db_none (db : DB) (liId : Nat)
    (p : MetadataData) (hf : metadataFindByListItemId db liId = none) :
    (metadataCreateOrUpdate db liId p).2
      = { db with metadata := db.metadata ++
          [{ id := nextId (db.metadata.map (·.id)), listItemId := liId,
             paintColors := jsStrOrNull p.paintColors,
             techniques := jsStrOrNull p.techniques,
             purchaseDate := jsStrOrNull p.purchaseDate,
             cost := p.cost,
             storageLocation := jsStrOrNull p.storageLocation,
             customNotes := jsStrOrNull p.customNotes }] } := by
  unfold metadataCreateOrUpdate
  rw [hf]

theorem metadataCreateOrUpdate_db_some (db : DB) (liId : Nat)
    (p : MetadataData) (r0 : MetadataRow)
    (hf : metadataFindByListItemId db liId = some r0) :
    (metadataCreateOrUpdate db liId p).2 = metadataUpdate db r0.id p := by
  unfold metadataCreateOrUpdate
  rw [hf]

theorem metadataCreateOrUpdate_effect (db : DB) (liId : Nat)
    (p : MetadataData) (hnd : (db.metadata.map (·.id)).Nodup)
    (hle : metadataCountFor db liId ≤ 1) :
    ∃ r : MetadataRow,
      ((metadataCreateOrUpdate db liId p).2).metadata.filter
          (fun m => m.listItemId == liId) = [r]
      ∧ r.listItemId = liId
      ∧ (∀ j, j ≠ liId →
          metadataCountFor (metadataCreateOrUpdate db liId p).2 j
            = metadataCountFor db j)
      ∧ (((metadataCreateOrUpdate db liId p).2).metadata.map (·.id)).Nodup
      ∧ (∀ r0, metadataFindByListItemId db liId = some r0 →
          r = applyMetadataUpdate p r0) := by
  cases hf : metadataFindByListItemId db liId with
  | none =>
    have hnil : db.metadata.filter (fun m => m.listItemId == liId) = [] := by
      rw [List.filter_eq_nil_iff]
      intro a ha
      exact List.find?_eq_none.mp hf a ha
    have hdb := metadataCreateOrUpdate_db_none db liId p hf
    refine ⟨{ id := nextId (db.metadata.map (·.id)),
              listItemId := liId,
              paintColors := jsStrOrNull p.paintColors,
              techniques := jsStrOrNull p.techniques,
              purchaseDate := jsStrOrNull p.purchaseDate,
              cost := p.cost,
              storageLocation := jsStrOrNull p.storageLocation,
              customNotes := jsStrOrNull p.customNotes }, ?_, ?_, ?_, ?_, ?_⟩
    · rw [hdb]
      dsimp only
      rw [List.filter_append, hnil, List.nil_append]
      simp only [List.filter_cons, List.filter_nil]
      rw [if_pos (by simp)]
    · rfl
    · intro j hj
      unfold metadataCountFor
      rw [hdb]
      dsimp only
      rw [List.filter_append]
      have hone : List.filter (fun m => m.listItemId == j)
          [({ id := nextId (db.metadata.map (·.id)), listItemId := liId,
              paintColors := jsStrOrNull p.paintColors,
              techniques := jsStrOrNull p.techniques,
              purchaseDate := jsStrOrNull p.purchaseDate,
              cost := p.cost,
              storageLocation := jsStrOrNull p.storageLocation,
              customNotes := jsStrOrNull p.customNotes } : MetadataRow)]
          = [] := by
        simp [Ne.symm hj]
      rw [hone, List.append_nil]
    · rw [hdb]
      dsimp only
      rw [List.map_append]
      refine List.nodup_append.mpr ⟨hnd, by simp, ?_⟩
      intro a ha hb
      simp only [List.map_cons, List.map_nil, List.mem_singleton] at hb
      rw [hb] at ha
      exact nextId_not_mem _ ha
    · intro r0 hf0
      exact Option.noConfusion hf0
  | some r0 =>
    have hmem : r0 ∈ db.metadata := List.mem_of_find?_eq_some hf
    have hr0p : r0.listItemId = liId := by
      have h := List.find?_some hf
      simpa using h
    unfold metadataCountFor at hle
    have hr0filt : db.metadata.filter (fun m => m.listItemId == liId)
        = [r0] :=
      eq_singleton_of_length_le_one_of_mem hle
        (List.mem_filter.mpr ⟨hmem, by simp [hr0p]⟩)
    have hdb := metadataCreateOrUpdate_db_some db liId p r0 hf
    refine ⟨applyMetadataUpdate p r0, ?_, ?_, ?_, ?_, ?_⟩
    · rw [hdb, filter_metadataUpdate, hr0filt]
      simp
    · exact hr0p
    · intro j hj
      unfold metadataCountFor
      rw [hdb, filter_metadataUpdate, List.length_map]
    · rw [hdb, metadataUpdate_ids]
      exact hnd
    · intro r1 hf0
      cases hf0
      rfl

/-- Claim C7: `Metadata.createOrUpdate` is idempotent in identity — for a
store holding at most one metadata row for the given list-item id, calling
it twice (with possibly different payloads) leaves exactly one metadata
row for that id, never two; every other list item's row count is
unchanged; at-most-one-row-per-item is preserved for the whole store; and
the surviving row reflects the latest payload: every field the second
payload provides holds the provided value. -/
theorem metadata_createOrUpdate_idempotent
    (db : DB) (liId : Nat) (p1 p2 : MetadataData)
    (hnd : (db.metadata.map (·.id)).Nodup)
    (hle : metadataCountFor db liId ≤ 1) :
    metadataCountFor (metadataCreateOrUpdate db liId p1).2 liId = 1
    ∧ metadataCountFor
        (metadataCreateOrUpdate
          (metadataCreateOrUpdate db liId p1).2 liId p2).2 liId = 1
    ∧ (∀ j, j ≠ liId →
        metadataCountFor
          (metadataCreateOrUpdate
            (metadataCreateOrUpdate db liId p1).2 liId p2).2 j
          = metadataCountFor db j)
    ∧ ((∀ j, metadataCountFor db j ≤ 1) →
        ∀ j, metadataCountFor
          (metadataCreateOrUpdate
            (metadataCreateOrUpdate db liId p1).2 liId p2).2 j ≤ 1)
    ∧ (∃ r, ((metadataCreateOrUpdate
          (metadataCreateOrUpdate db liId p1).2 liId p2).2).metadata.filter
            (fun m => m.listItemId == liId) = [r]
        ∧ (∀ v, p2.paintColors = some v → r.paintColors = v)
        ∧ (∀ v, p2.techniques = some v → r.techniques = v)
        ∧ (∀ v, p2.purchaseDate = some v → r.purchaseDate = v)
        ∧ (∀ c, p2.cost = some c → r.cost = some c)
        ∧ (∀ v, p2.storageLocation = some v → r.storageLocation = v)
        ∧ (∀ v, p2.customNotes = some v → r.customNotes = v)) := by
  obtain ⟨r1, hf1, hl1, hothers1, hnd1, _⟩ :=
    metadataCreateOrUpdate_effect db liId p1 hnd hle
  have hc1 : metadataCountFor (metadataCreateOrUpdate db liId p1).2 liId
      = 1 := by
    unfold metadataCountFor
    rw [hf1]
    rfl
  obtain ⟨r2, hf2, hl2, hothers2, hnd2, hraw2⟩ :=
    metadataCreateOrUpdate_effect (metadataCreateOrUpdate db liId p1).2
      liId p2 hnd1 (le_of_eq hc1)
  have hc2 : metadataCountFor
      (metadataCreateOrUpdate
        (metadataCreateOrUpdate db liId p1).2 liId p2).2 liId = 1 := by
    unfold metadataCountFor
    rw [hf2]
    rfl
  have hfind1 : metadataFindByListItemId
      (metadataCreateOrUpdate db liId p1).2 liId = some r1 := by
    unfold metadataFindByListItemId
    exact find?_of_filter_eq_singleton _ hf1
  have hr2 : r2 = applyMetadataUpdate p2 r1 := hraw2 r1 hfind1
  refine ⟨hc1, hc2, ?_, ?_, ?_⟩
  · intro j hj
    rw [hothers2 j hj, hothers1 j hj]
  · intro hall j
    by_cases hj : j = liId
    · rw [hj, hc2]
    · rw [hothers2 j hj, hothers1 j hj]
      exact hall j
  · refine ⟨r2, hf2, ?_, ?_, ?_, ?_, ?_, ?_⟩
    · intro v hv
      rw [hr2]
      simp [applyMetadataUpdate, hv]
    · intro v hv
      rw [hr2]
      simp [applyMetadataUpdate, hv]
    · intro v hv
      rw [hr2]
      simp [applyMetadataUpdate, hv]
    · intro c hc
      rw [hr2]
      simp [applyMetadataUpdate, hc]
    · intro v hv
      rw [hr2]
      simp [applyMetadataUpdate, hv]
    · intro v hv
      rw [hr2]
      simp [applyMetadataUpdate, hv]

/-- Witness for C7: two calls on the sample store's item 1 (which already
has one metadata row) still leave exactly one row for item 1. -/
theorem metadata_createOrUpdate_idempotent_witness :
    metadataCountFor
        (metadataCreateOrUpdate
          (metadataCreateOrUpdate sampleDb 1
            ⟨some (some "blue"), none, none, none, none, none⟩).2 1
          ⟨none, some (some "drybrush"), none, none, none, none⟩).2 1 = 1 :=
  (metadata_createOrUpdate_idempotent sampleDb 1
    ⟨some (some "blue"), none, none, none, none, none⟩
    ⟨none, some (some "drybrush"), none, none, none, none⟩
    (by decide) (by decide)).2.1

/-- Claim C9: when a metadata row already exists for the list item,
`Metadata.createOrUpdate` updates only the payload fields that are not
undefined — omitted fields keep their stored values — while the returned
object spreads the raw payload over `{ id, listItemId }`, so the returned
object reports exactly the raw payload fields (undefined for omitted
ones) and need not match the stored row. -/
theorem metadata_createOrUpdate_update_branch
    (db : DB) (liId : Nat) (p : MetadataData) (r : MetadataRow)
    (hfind : metadataFindByListItemId db liId = some r)
    (hnd : (db.metadata.map (·.id)).Nodup) :
    (metadataCreateOrUpdate db liId p).1
      = { id := r.id, listItemId := liId,
          paintColors := p.paintColors, techniques := p.techniques,
          purchaseDate := p.purchaseDate, cost := p.cost.map some,
          storageLocation := p.storageLocation,
          customNotes := p.customNotes }
    ∧ ((metadataCreateOrUpdate db liId p).2).metadata.find?
        (fun m => m.id == r.id)
        = some { r with
            paintColors := p.paintColors.getD r.paintColors,
            techniques := p.techniques.getD r.techniques,
            purchaseDate := p.purchaseDate.getD r.purchaseDate,
            cost := match p.cost with | some c => some c | none => r.cost,
            storageLocation := p.storageLocation.getD r.storageLocation,
            customNotes := p.customNotes.getD r.customNotes } := by
  have hmem : r ∈ db.metadata := List.mem_of_find?_eq_some hfind
  constructor
  · unfold metadataCreateOrUpdate
    rw [hfind]
  · have hdb := metadataCreateOrUpdate_db_some db liId p r hfind
    rw [hdb, metadataUpdate_metadata_eq]
    exact find?_conditional_map MetadataRow.id db.metadata hnd hmem rfl
      (applyMetadataUpdate p) (fun a => rfl)

/-- Witness for C9: an all-undefined payload on the sample store's
existing metadata row returns an object whose `paintColors` is undefined
while the stored row keeps `paintColors = "red"`. -/
theorem metadata_createOrUpdate_update_branch_witness :
    (metadataCreateOrUpdate sampleDb 1
        ⟨none, none, none, none, none, none⟩).1
      = { id := 1, listItemId := 1, paintColors := none, techniques := none,
          purchaseDate := none, cost := none, storageLocation := none,
          customNotes := none }
    ∧ ((metadataCreateOrUpdate sampleDb 1
        ⟨none, none, none, none, none, none⟩).2).metadata.find?
        (fun m => m.id == 1)
      = some { id := 1, listItemId := 1, paintColors := some "red",
               techniques := none, purchaseDate := none, cost := none,
               storageLocation := none, customNotes := none } :=
  metadata_createOrUpdate_update_branch sampleDb 1
    ⟨none, none, none, none, none, none⟩
    { id := 1, listItemId := 1, paintColors := some "red",
      techniques := none, purchaseDate := none, cost := none,
      storageLocation := none, customNotes := none }
    rfl (by decide)

end MiniTrack
